import Mathlib

/-!
# vite.config.js

A shallow embedding of the module `vite.config.js`.  The module imports two
functions, `defineConfig` (from the bundler) and `svelte` (the plugin
factory), builds one object literal and exports `defineConfig(literal)`.

The two imported functions live outside the repository, so the module is
embedded as a function of them.
-/

namespace ViteConfig

/-- JavaScript values the module builds or receives.  `host` stands for a
value created by imported code (functions, plugin instances) which the module
never looks into. -/
inductive JSValue (α : Type) where
  | undefined : JSValue α
  | str (s : String) : JSValue α
  | arr (items : List (JSValue α)) : JSValue α
  | obj (props : List (String × JSValue α)) : JSValue α
  | host (h : α) : JSValue α

variable {α : Type}

/-- Define an own property on a property list kept in creation order: a key
that already exists keeps its position and takes the new value, a new key is
appended. -/
def defineProperty (props : List (String × JSValue α)) (k : String) (v : JSValue α) :
    List (String × JSValue α) :=
  match props with
  | [] => [(k, v)]
  | (k0, v0) :: rest =>
    if k0 = k then (k0, v) :: rest else (k0, v0) :: defineProperty rest k v

/-- Evaluate an object literal `{ k1: v1, k2: v2, ... }`: the properties are
defined left to right on a fresh object. -/
def objectLiteral (entries : List (String × JSValue α)) : JSValue α :=
  JSValue.obj (entries.foldl (fun acc e => defineProperty acc e.1 e.2) [])

/-- Own property lookup; `none` when the value is not an object or has no
such own property. -/
def getOwn (v : JSValue α) (k : String) : Option (JSValue α) :=
  match v with
  | JSValue.obj props => (props.find? (fun e => e.1 == k)).map Prod.snd
  | _ => none

/-- Follow a chain of property names, as in `config.optimizeDeps.exclude`. -/
def getPath (v : JSValue α) : List String → Option (JSValue α)
  | [] => some v
  | k :: ks => (getOwn v k).bind (fun w => getPath w ks)

/-- Own property names in creation order (all names used by the module are
identifier names, none is an array index); `none` for a non-object. -/
def ownKeys : JSValue α → Option (List String)
  | JSValue.obj props => some (props.map Prod.fst)
  | _ => none

/-- Whether a value is a plain object (built by an object literal). -/
def isObject : JSValue α → Bool
  | JSValue.obj _ => true
  | _ => false

mutual
/-- Paths from a configuration value down to every field that is not itself
an option group (an object). -/
def fieldPaths : JSValue α → List (List String)
  | JSValue.obj props => propsPaths props
  | _ => [[]]
/-- The field paths of a property list, property by property. -/
def propsPaths : List (String × JSValue α) → List (List String)
  | [] => []
  | (k, v) :: rest => (fieldPaths v).map (fun p => k :: p) ++ propsPaths rest
end

/-- The elements of `optimizeDeps.exclude` (no elements when the field is
absent or not an array). -/
def excludeList (cfg : JSValue α) : List (JSValue α) :=
  match getPath cfg ["optimizeDeps", "exclude"] with
  | some (JSValue.arr xs) => xs
  | _ => []

/-- Whether the module name `m` is listed in `optimizeDeps.exclude`. -/
def isExcluded (cfg : JSValue α) (m : String) : Bool :=
  (excludeList cfg).any (fun e =>
    match e with
    | JSValue.str s => s == m
    | _ => false)

/-- The elements of `plugins` (no elements when the field is absent or not an
array). -/
def pluginList (cfg : JSValue α) : List (JSValue α) :=
  match getOwn cfg "plugins" with
  | some (JSValue.arr xs) => xs
  | _ => []

/-- The object literal of lines 4 to 15, the argument of `defineConfig`.  The
plugin factory `svelte` is called once, with no arguments. -/
def configObject (svelte : List (JSValue α) → JSValue α) : JSValue α :=
  objectLiteral [
    ("build", objectLiteral [
      ("target", JSValue.str "esnext")]),
    ("optimizeDeps", objectLiteral [
      ("esbuildOptions", objectLiteral [
        ("target", JSValue.str "esnext")]),
      ("exclude", JSValue.arr [JSValue.str "fsevents"])]),
    ("plugins", JSValue.arr [svelte []])]

/-- The default export of the module: `defineConfig({ ... })`. -/
def defaultExport (defineConfig : JSValue α → JSValue α)
    (svelte : List (JSValue α) → JSValue α) : JSValue α :=
  defineConfig (configObject svelte)

/-! ## Shared facts about the object literal -/

/-- The object literal evaluates to this property list, whatever the plugin
factory returns. -/
theorem configObject_eq (svelte : List (JSValue α) → JSValue α) :
    configObject svelte = JSValue.obj [
      ("build", JSValue.obj [("target", JSValue.str "esnext")]),
      ("optimizeDeps", JSValue.obj [
        ("esbuildOptions", JSValue.obj [("target", JSValue.str "esnext")]),
        ("exclude", JSValue.arr [JSValue.str "fsevents"])]),
      ("plugins", JSValue.arr [svelte []])] := by
  simp [configObject, objectLiteral, defineProperty]

/-- When `defineConfig` hands its argument back, the export is the literal. -/
theorem defaultExport_of_id (defineConfig : JSValue α → JSValue α)
    (svelte : List (JSValue α) → JSValue α) (hdc : ∀ c, defineConfig c = c) :
    defaultExport defineConfig svelte = configObject svelte := by
  simp [defaultExport, hdc]

/-! ## The claims -/

/-- C1: in the exported configuration (with `defineConfig` returning its
argument, as the bundler's helper does) the field `build.target` is present
and is the string `esnext`. -/
theorem build_target_esnext (defineConfig : JSValue α → JSValue α)
    (svelte : List (JSValue α) → JSValue α) (hdc : ∀ c, defineConfig c = c) :
    getPath (defaultExport defineConfig svelte) ["build", "target"]
      = some (JSValue.str "esnext") := by
  rw [defaultExport_of_id defineConfig svelte hdc, configObject_eq]
  simp [getPath, getOwn]

/-- Witness of C1: the identity `defineConfig` and a plugin factory that
returns an array holding one host value followed by its arguments. -/
theorem build_target_esnext_witness :
    (∀ c : JSValue Nat, (fun x => x) c = c) ∧
    getPath (defaultExport (fun x => x)
        (fun args => JSValue.arr (JSValue.host (7 : Nat) :: args))) ["build", "target"]
      = some (JSValue.str "esnext") :=
  ⟨fun _ => rfl, build_target_esnext (fun x => x)
    (fun args => JSValue.arr (JSValue.host (7 : Nat) :: args)) (fun _ => rfl)⟩

/-- C2: in the exported configuration the pre-bundling target
`optimizeDeps.esbuildOptions.target` and the build target `build.target` are
both present and hold the same value. -/
theorem esbuild_target_eq_build_target (defineConfig : JSValue α → JSValue α)
    (svelte : List (JSValue α) → JSValue α) (hdc : ∀ c, defineConfig c = c) :
    ∃ t, getPath (defaultExport defineConfig svelte)
            ["optimizeDeps", "esbuildOptions", "target"] = some t ∧
         getPath (defaultExport defineConfig svelte) ["build", "target"] = some t := by
  rw [defaultExport_of_id defineConfig svelte hdc, configObject_eq]
  exact ⟨JSValue.str "esnext", by simp [getPath, getOwn], by simp [getPath, getOwn]⟩

/-- Witness of C2 at the identity `defineConfig` and a constant factory. -/
theorem esbuild_target_eq_build_target_witness :
    (∀ c : JSValue Nat, (fun x => x) c = c) ∧
    ∃ t, getPath (defaultExport (fun x => x) (fun _ => JSValue.host (3 : Nat)))
            ["optimizeDeps", "esbuildOptions", "target"] = some t ∧
         getPath (defaultExport (fun x => x) (fun _ => JSValue.host (3 : Nat)))
            ["build", "target"] = some t :=
  ⟨fun _ => rfl, esbuild_target_eq_build_target (fun x => x)
    (fun _ => JSValue.host (3 : Nat)) (fun _ => rfl)⟩

/-- C3: in the exported configuration `optimizeDeps.exclude` is the array with
the single element `fsevents`, so a module name is listed there exactly when
it is `fsevents`. -/
theorem exclude_only_fsevents (defineConfig : JSValue α → JSValue α)
    (svelte : List (JSValue α) → JSValue α) (hdc : ∀ c, defineConfig c = c) :
    getPath (defaultExport defineConfig svelte) ["optimizeDeps", "exclude"]
        = some (JSValue.arr [JSValue.str "fsevents"]) ∧
    (excludeList (defaultExport defineConfig svelte)).length = 1 ∧
    ∀ m : String, isExcluded (defaultExport defineConfig svelte) m = true ↔ m = "fsevents" := by
  rw [defaultExport_of_id defineConfig svelte hdc, configObject_eq]
  refine ⟨by simp [getPath, getOwn], by simp [excludeList, getPath, getOwn], ?_⟩
  intro m
  have hm : isExcluded (JSValue.obj [
      ("build", JSValue.obj [("target", JSValue.str "esnext")]),
      ("optimizeDeps", JSValue.obj [
        ("esbuildOptions", JSValue.obj [("target", JSValue.str "esnext")]),
        ("exclude", JSValue.arr [JSValue.str "fsevents"])]),
      ("plugins", JSValue.arr [svelte []])]) m = ("fsevents" == m) := by
    simp [isExcluded, excludeList, getPath, getOwn]
  rw [hm]
  constructor
  · intro h
    exact (eq_of_beq h).symm
  · intro h
    rw [h]
    exact beq_self_eq_true _

/-- Witness of C3 at the identity `defineConfig` and a constant factory:
`fsevents` is listed, `chokidar` is not. -/
theorem exclude_only_fsevents_witness :
    (∀ c : JSValue Nat, (fun x => x) c = c) ∧
    excludeList (defaultExport (fun x => x) (fun _ => JSValue.host (3 : Nat)))
        = [JSValue.str "fsevents"] ∧
    isExcluded (defaultExport (fun x => x) (fun _ => JSValue.host (3 : Nat))) "fsevents"
        = true ∧
    ¬ isExcluded (defaultExport (fun x => x) (fun _ => JSValue.host (3 : Nat))) "chokidar"
        = true :=
  ⟨fun _ => rfl, rfl,
    ((exclude_only_fsevents (fun x => x)
      (fun _ => JSValue.host (3 : Nat)) (fun _ => rfl)).2.2 "fsevents").mpr rfl,
    fun hc => absurd (((exclude_only_fsevents (fun x => x)
      (fun _ => JSValue.host (3 : Nat)) (fun _ => rfl)).2.2 "chokidar").mp hc) (by decide)⟩

/-- C4: in the exported configuration `plugins` is an array of length exactly
one whose only element is the value of `svelte()`, the factory called with no
arguments. -/
theorem plugins_single_svelte (defineConfig : JSValue α → JSValue α)
    (svelte : List (JSValue α) → JSValue α) (hdc : ∀ c, defineConfig c = c) :
    getOwn (defaultExport defineConfig svelte) "plugins" = some (JSValue.arr [svelte []]) ∧
    (pluginList (defaultExport defineConfig svelte)).length = 1 ∧
    pluginList (defaultExport defineConfig svelte) = [svelte []] := by
  rw [defaultExport_of_id defineConfig svelte hdc, configObject_eq]
  simp [pluginList, getOwn]

/-- Witness of C4: a factory whose result depends on its arguments, so that
the registered plugin is seen to be the result for no arguments. -/
theorem plugins_single_svelte_witness :
    (∀ c : JSValue Nat, (fun x => x) c = c) ∧
    pluginList (defaultExport (fun x => x)
        (fun args => JSValue.arr (JSValue.host (7 : Nat) :: args)))
      = [JSValue.arr [JSValue.host 7]] :=
  ⟨fun _ => rfl, (plugins_single_svelte (fun x => x)
    (fun args => JSValue.arr (JSValue.host (7 : Nat) :: args)) (fun _ => rfl)).2.2⟩

/-- C5: the object passed to `defineConfig` has exactly the top-level keys
`build`, `optimizeDeps` and `plugins`; `build` has the single key `target`;
`optimizeDeps` has exactly the keys `esbuildOptions` and `exclude`;
`esbuildOptions` has the single key `target`.  Its fields are therefore exactly
the build target, the pre-bundling target, the exclusion list and the plugin
list. -/
theorem config_keys_exact (svelte : List (JSValue α) → JSValue α) :
    ownKeys (configObject svelte) = some ["build", "optimizeDeps", "plugins"] ∧
    (getPath (configObject svelte) ["build"]).bind ownKeys = some ["target"] ∧
    (getPath (configObject svelte) ["optimizeDeps"]).bind ownKeys
        = some ["esbuildOptions", "exclude"] ∧
    (getPath (configObject svelte) ["optimizeDeps", "esbuildOptions"]).bind ownKeys
        = some ["target"] ∧
    fieldPaths (configObject svelte)
        = [["build", "target"], ["optimizeDeps", "esbuildOptions", "target"],
           ["optimizeDeps", "exclude"], ["plugins"]] := by
  rw [configObject_eq]
  simp [ownKeys, getPath, getOwn, fieldPaths, propsPaths]

/-- C6: the exported configuration (with `defineConfig` returning its
argument) is the object literal itself, a plain object and not a function, and
it holds exactly the written options.  Two evaluations of the module that get
the same value from `svelte()` export the same configuration: the build
target and the pre-bundling target are `esnext` in both, the exclusion list
is `['fsevents']` in both, the plugin list is `[svelte()]` in both, and every
option path reads the same in both. -/
theorem export_static (defineConfig₁ defineConfig₂ : JSValue α → JSValue α)
    (svelte₁ svelte₂ : List (JSValue α) → JSValue α)
    (hdc₁ : ∀ c, defineConfig₁ c = c) (hdc₂ : ∀ c, defineConfig₂ c = c)
    (h : svelte₁ [] = svelte₂ []) :
    defaultExport defineConfig₁ svelte₁ = configObject svelte₁ ∧
    isObject (defaultExport defineConfig₁ svelte₁) = true ∧
    defaultExport defineConfig₁ svelte₁ = JSValue.obj [
      ("build", JSValue.obj [("target", JSValue.str "esnext")]),
      ("optimizeDeps", JSValue.obj [
        ("esbuildOptions", JSValue.obj [("target", JSValue.str "esnext")]),
        ("exclude", JSValue.arr [JSValue.str "fsevents"])]),
      ("plugins", JSValue.arr [svelte₁ []])] ∧
    defaultExport defineConfig₁ svelte₁ = defaultExport defineConfig₂ svelte₂ ∧
    (getPath (defaultExport defineConfig₁ svelte₁) ["build", "target"]
        = some (JSValue.str "esnext") ∧
     getPath (defaultExport defineConfig₂ svelte₂) ["build", "target"]
        = some (JSValue.str "esnext")) ∧
    (getPath (defaultExport defineConfig₁ svelte₁) ["optimizeDeps", "esbuildOptions", "target"]
        = some (JSValue.str "esnext") ∧
     getPath (defaultExport defineConfig₂ svelte₂) ["optimizeDeps", "esbuildOptions", "target"]
        = some (JSValue.str "esnext")) ∧
    (excludeList (defaultExport defineConfig₁ svelte₁) = [JSValue.str "fsevents"] ∧
     excludeList (defaultExport defineConfig₂ svelte₂) = [JSValue.str "fsevents"]) ∧
    (pluginList (defaultExport defineConfig₁ svelte₁) = [svelte₁ []] ∧
     pluginList (defaultExport defineConfig₂ svelte₂) = [svelte₁ []]) ∧
    ∀ p : List String,
      getPath (defaultExport defineConfig₁ svelte₁) p
        = getPath (defaultExport defineConfig₂ svelte₂) p := by
  have he₁ := defaultExport_of_id defineConfig₁ svelte₁ hdc₁
  have he₂ := defaultExport_of_id defineConfig₂ svelte₂ hdc₂
  have hobj : configObject svelte₂ = configObject svelte₁ := by
    rw [configObject_eq, configObject_eq, h]
  rw [he₂, hobj, he₁]
  refine ⟨rfl, ?_, configObject_eq svelte₁, rfl, ?_, ?_, ?_, ?_, fun _ => rfl⟩
  · rw [configObject_eq]
    rfl
  · rw [configObject_eq]
    simp [getPath, getOwn]
  · rw [configObject_eq]
    simp [getPath, getOwn]
  · rw [configObject_eq]
    simp [excludeList, getPath, getOwn]
  · rw [configObject_eq]
    simp [pluginList, getOwn]

/-- Witness of C6: the identity `defineConfig` in both evaluations and two
different factories that agree when called with no arguments; the export is
the literal, a plain object, and is the same in both. -/
theorem export_static_witness :
    (∀ c : JSValue Nat, (fun x => x) c = c) ∧
    (fun args => JSValue.arr (JSValue.host (7 : Nat) :: args)) []
        = (fun _ => JSValue.arr [JSValue.host (7 : Nat)]) ([] : List (JSValue Nat)) ∧
    isObject (defaultExport (fun x => x)
        (fun args => JSValue.arr (JSValue.host (7 : Nat) :: args))) = true ∧
    defaultExport (fun x => x) (fun args => JSValue.arr (JSValue.host (7 : Nat) :: args))
      = defaultExport (fun x => x) (fun _ => JSValue.arr [JSValue.host (7 : Nat)]) ∧
    pluginList (defaultExport (fun x => x) (fun _ => JSValue.arr [JSValue.host (7 : Nat)]))
      = [JSValue.arr [JSValue.host 7]] :=
  match export_static (fun x => x) (fun x => x)
      (fun args => JSValue.arr (JSValue.host (7 : Nat) :: args))
      (fun _ => JSValue.arr [JSValue.host (7 : Nat)]) (fun _ => rfl) (fun _ => rfl) rfl with
  | ⟨_, hform, _, hsame, _, _, _, ⟨_, hplug⟩, _⟩ => ⟨fun _ => rfl, rfl, hform, hsame, hplug⟩

end ViteConfig
